import Mathlib

/-!
Verification of the n8n workflow CI/CD scripts (`scripts/manage-workflows.js`,
`scripts/deployment-manager.js`, `scripts/validate-workflows.js`,
`scripts/release-manager.js` and companions).

JavaScript strings are modelled as lists of characters (`Str`); the string
methods the scripts use (`endsWith`, `substring`, `split`, the two regex
replaces of `generateFileName`, `parseInt`) are embedded as executable
functions on `Str`, restricted to the ASCII behaviour the scripts rely on.
Each `scripts/*.js` file in the repository contains two related variants of
the same class; definitions from the earlier variant carry a `V1` suffix,
definitions without a suffix come from the later variant (the one the
line-numbered citations past the separator point at).
-/

namespace N8n

/-- A JavaScript string, modelled as its sequence of characters. -/
abbrev Str := List Char

/-- JS `s.endsWith(suf)`. -/
def jsEndsWith (s suf : Str) : Bool := decide (suf <:+ s)

/-! ## NameCodec: suffix table and name mapping (`manage-workflows.js`) -/

/-- `getSuffix(environment)` (second variant, lines 761-767): the suffix table
is hard-coded to `-dev` / `-prod`; an unknown environment yields `''`. -/
def getSuffix (environment : String) : Str :=
  if environment = "dev" then "-dev".data
  else if environment = "prod" then "-prod".data
  else []

/-- `getBaseNameFromWorkflowName(workflowName)` (second variant, lines
769-778): strip `-dev` (4 chars) else `-prod` (5 chars), else return the
name unchanged. -/
def getBaseNameFromWorkflowName (workflowName : Str) : Str :=
  if jsEndsWith workflowName "-dev".data then
    workflowName.take (workflowName.length - 4)
  else if jsEndsWith workflowName "-prod".data then
    workflowName.take (workflowName.length - 5)
  else workflowName

/-- `getEnvironmentFromWorkflowName(workflowName)` (second variant, lines
780-784): defaults to `dev` when no suffix matches. -/
def getEnvironmentFromWorkflowName (workflowName : Str) : String :=
  if jsEndsWith workflowName "-dev".data then "dev"
  else if jsEndsWith workflowName "-prod".data then "prod"
  else "dev"

/-- The `settings` block of `managed-workflows.json` consumed by the first
variant: one suffix string per environment. -/
structure Settings where
  devSuffix : Str
  prodSuffix : Str
  stagingSuffix : Str

/-- `getEnvironmentFromWorkflowName(workflowName)` (first variant, lines
80-85): suffixes come from the settings; no match yields `unknown`. -/
def getEnvironmentFromWorkflowNameV1 (st : Settings) (workflowName : Str) : String :=
  if jsEndsWith workflowName st.devSuffix then "dev"
  else if jsEndsWith workflowName st.prodSuffix then "prod"
  else if jsEndsWith workflowName st.stagingSuffix then "staging"
  else "unknown"

/-- `getBaseNameFromWorkflowName` (first variant, lines 71-78): iterate the
settings values, stripping the first truthy suffix the name ends with. -/
def stripFirstSuffix : List Str → Str → Str
  | [], name => name
  | suf :: rest, name =>
    if !suf.isEmpty && jsEndsWith name suf then name.take (name.length - suf.length)
    else stripFirstSuffix rest name

/-- `getBaseNameFromWorkflowName(workflowName)` (first variant, lines 71-78),
with `Object.values(settings)` enumerated in field order. -/
def getBaseNameFromWorkflowNameV1 (st : Settings) (workflowName : Str) : Str :=
  stripFirstSuffix [st.devSuffix, st.prodSuffix, st.stagingSuffix] workflowName

/-- `getEnvironment(workflowName)` of `validate-workflows.js` (lines 225-229):
hard-coded suffixes, `unknown` sentinel on no match. -/
def getEnvironment (workflowName : Str) : String :=
  if jsEndsWith workflowName "-dev".data then "dev"
  else if jsEndsWith workflowName "-prod".data then "prod"
  else "unknown"

/-! ## File-name generation (`generateFileName`) -/

/-- JS `\s` on the ASCII range (the repository's workflow names are ASCII). -/
def isJsSpace (c : Char) : Bool :=
  c == ' ' || c == '\t' || c == '\n' || c == '\r' || c == '\x0b' || c == '\x0c'

/-- The character class `[a-zA-Z0-9\s-]` kept by `.replace(/[^a-zA-Z0-9\s-]/g, '')`. -/
def isKeptChar (c : Char) : Bool := c.isAlpha || c.isDigit || isJsSpace c || c == '-'

/-- JS `.replace(/\s+/g, '_')`: every maximal run of whitespace becomes one
underscore.  The Boolean argument records whether the previous character was
part of a whitespace run. -/
def collapseWsAux : Bool → Str → Str
  | _, [] => []
  | prevWs, c :: rest =>
    if isJsSpace c then
      if prevWs then collapseWsAux true rest else '_' :: collapseWsAux true rest
    else c :: collapseWsAux false rest

/-- JS `.replace(/\s+/g, '_')`. -/
def collapseWs (s : Str) : Str := collapseWsAux false s

/-- `generateFileName(workflowName)` (first variant, lines 167-172):
strip disallowed characters, collapse whitespace to `_`, lowercase,
append `.json`. -/
def generateFileNameV1 (workflowName : Str) : Str :=
  (collapseWs (workflowName.filter isKeptChar)).map Char.toLower ++ ".json".data

/-- `generateFileName(workflowName)` (second variant, lines 867-876): derive
the base name first, then apply the same normalisation chain. -/
def generateFileName (workflowName : Str) : Str :=
  (collapseWs ((getBaseNameFromWorkflowName workflowName).filter isKeptChar)).map
    Char.toLower ++ ".json".data

/-! ## Version suggestion (`release-manager.js`) -/

/-- Numeric value of a run of decimal digits. -/
def digitsVal (s : Str) : Nat := s.foldl (fun acc c => 10 * acc + (c.toNat - '0'.toNat)) 0

/-- The longest decimal-digit run at the front of `d`, as parsed by JS
`parseInt`; `none` when there is no digit (`NaN`). -/
def jsDigitsOf (d : Str) : Option Nat :=
  let ds := d.takeWhile Char.isDigit
  if ds.isEmpty then none else some (digitsVal ds)

/-- JS `parseInt(s)` on decimal inputs: skip leading whitespace, optional
sign, longest digit run; `none` models `NaN`.  (The `0x` hexadecimal guess of
`parseInt` is irrelevant to version strings and not modelled.) -/
def jsParseInt (s : Str) : Option Int :=
  match s.dropWhile isJsSpace with
  | [] => none
  | c :: rest =>
    if c = '-' then (jsDigitsOf rest).map (fun n => -(n : Int))
    else if c = '+' then (jsDigitsOf rest).map (fun n => (n : Int))
    else (jsDigitsOf (c :: rest)).map (fun n => (n : Int))

/-- JS `parseInt(x) || 0` as used in `compareVersions`/`suggestNextVersion`:
`NaN` collapses to `0` (and `0` stays `0`). -/
def parseIntOr0 (s : Str) : Int :=
  match jsParseInt s with
  | none => 0
  | some v => v

/-- JS `s.split('.')` on the character-list model. -/
def splitOnDot : Str → List Str
  | [] => [[]]
  | c :: rest =>
    if c = '.' then [] :: splitOnDot rest
    else
      match splitOnDot rest with
      | [] => [[c]]
      | h :: t => (c :: h) :: t

/-- JS `.replace(/^v/, '')`: strip a single leading lowercase `v`. -/
def stripLeadingV : Str → Str
  | 'v' :: rest => rest
  | s => s

/-- Rendering of a JS number (integer case) inside a template literal. -/
def intToStr (n : Int) : Str := (toString n).data

/-- `suggestNextVersion(currentVersion)` (`release-manager.js` lines 513-530).
`currentVersion = null` (or the falsy `''`) yields `v1.0.0`; otherwise the
patch suggestion `v${parts[0] || 1}.${parts[1] || 0}.${(parts[2] || 0) + 1}`
is returned. -/
def suggestNextVersion (currentVersion : Option Str) : Str :=
  match currentVersion with
  | none => "v1.0.0".data
  | some cv =>
    if cv.isEmpty then "v1.0.0".data
    else
      let parts := (splitOnDot (stripLeadingV cv)).map parseIntOr0
      let major := if parts.getD 0 0 = 0 then 1 else parts.getD 0 0
      let minor := parts.getD 1 0
      let patch := parts.getD 2 0 + 1
      'v' :: (intToStr major ++ '.' :: (intToStr minor ++ '.' :: intToStr patch))

/-! ## Workflow data model (`RemoteEntity` / node graph) -/

/-- JSON values, as stored in the `variables` maps of `managed-workflows.json`
and serialized into the Configuration node. -/
inductive Json where
  | null
  | bool (b : Bool)
  | num (n : Int)
  | str (s : Str)
  | arr (items : List Json)
  | obj (fields : List (Str × Json))

/-- JSON string escaping as performed by `JSON.stringify`. -/
def escapeChar (c : Char) : Str :=
  if c = '"' then ['\\', '"']
  else if c = '\\' then ['\\', '\\']
  else if c = '\n' then ['\\', 'n']
  else if c = '\r' then ['\\', 'r']
  else if c = '\t' then ['\\', 't']
  else [c]

def escapeStr (s : Str) : Str := s.flatMap escapeChar

def spaces (n : Nat) : Str := List.replicate n ' '

/-! `JSON.stringify(value, null, 2)`: two-space-indented pretty printing,
`ind` being the indentation of the surrounding container. -/

mutual

def jsonStringify (ind : Nat) : Json → Str
  | .null => "null".data
  | .bool true => "true".data
  | .bool false => "false".data
  | .num n => intToStr n
  | .str s => '"' :: (escapeStr s ++ ['"'])
  | .arr [] => "[]".data
  | .arr (x :: xs) =>
    '[' :: '\n' :: (jsonItems (ind + 2) x xs ++ '\n' :: (spaces ind ++ [']']))
  | .obj [] => ['\x7b', '\x7d']
  | .obj (f :: fs) =>
    '\x7b' :: '\n' :: (jsonFields (ind + 2) f fs ++ '\n' :: (spaces ind ++ ['\x7d']))
termination_by j => sizeOf j
decreasing_by all_goals (simp_wf; try omega)

def jsonItems (ind : Nat) : Json → List Json → Str
  | x, [] => spaces ind ++ jsonStringify ind x
  | x, y :: ys => spaces ind ++ jsonStringify ind x ++ ',' :: '\n' :: jsonItems ind y ys
termination_by x xs => sizeOf x + sizeOf xs
decreasing_by all_goals (simp_wf; try omega)

def jsonFields (ind : Nat) : Str × Json → List (Str × Json) → Str
  | (k, v), [] =>
    spaces ind ++ '"' :: (escapeStr k ++ '"' :: ':' :: ' ' :: jsonStringify ind v)
  | (k, v), f :: fs =>
    spaces ind ++ '"' :: (escapeStr k ++ '"' :: ':' :: ' ' :: jsonStringify ind v) ++
      ',' :: '\n' :: jsonFields ind f fs
termination_by f fs => sizeOf f + sizeOf fs
decreasing_by all_goals (simp_wf; try omega)

end

/-- The `parameters` object of a node; only the fields the scripts touch are
modelled, each optional because JS objects are open. -/
structure NodeParams where
  jsCode : Option Str := none
  content : Option Str := none
  color : Option Int := none
  height : Option Int := none
  width : Option Int := none
deriving DecidableEq

/-- One workflow node: `{id, name, type, typeVersion, parameters, position}`. -/
structure Node where
  id : Str
  name : Str
  type : Str
  typeVersion : Int
  position : Int × Int
  parameters : NodeParams
  webhookId : Option Str := none
deriving DecidableEq

/-- One entry of a connection adjacency list: `{node, type, index}`. -/
structure ConnTarget where
  node : Str
  type : Str
  index : Nat
deriving DecidableEq

/-- `{ main: [[...]] }` — the outgoing-connection structure of one node. -/
structure ConnEntry where
  main : List (List ConnTarget)
deriving DecidableEq

/-- `workflow.connections`: a JS object keyed by source node name, modelled
as an association list in property order. -/
abbrev Connections := List (Str × ConnEntry)

/-- A workflow as the scripts see it (fields not touched by the modelled
operations — tags, meta, pinData … — are stripped before every remote call
and are not represented). -/
structure Workflow where
  name : Str
  active : Option Bool := none
  nodes : Option (List Node) := none
  connections : Option Connections := none
deriving DecidableEq

/-- One row of `managed-workflows.json`: base name plus per-environment
variable maps (the JS field is `variables`, a Lean keyword, hence the
primed name). -/
structure ManagedWorkflowCfg where
  baseName : Str
  variables' : Option (List (String × List (Str × Json))) := none

/-! ## VariableInjector (`injectEnvironmentVariables`, lines 1570-1684) -/

def codeNodeType : Str := "n8n-nodes-base.code".data

def stickyNoteType : Str := "n8n-nodes-base.stickyNote".data

/-- `node.name === 'Configuration' || node.name === 'Variables'`. -/
def isConfigNodeName (n : Node) : Bool :=
  n.name == "Configuration".data || n.name == "Variables".data

/-- JS `s.includes(sub)`. -/
def jsIncludes (s sub : Str) : Bool := decide (sub <:+: s)

/-- `node.type.includes('Trigger') || node.name.includes('Trigger') ||
node.name.includes('When')`. -/
def isTriggerNode (n : Node) : Bool :=
  jsIncludes n.type "Trigger".data || jsIncludes n.name "Trigger".data ||
    jsIncludes n.name "When".data

/-- `node.type === 'n8n-nodes-base.stickyNote' && (node.name === 'Version Info'
|| node.parameters?.content?.includes('Version'))`. -/
def isVersionNote (n : Node) : Bool :=
  n.type == stickyNoteType &&
    (n.name == "Version Info".data ||
      match n.parameters.content with
      | some ct => jsIncludes ct "Version".data
      | none => false)

/-- JS property assignment on an object modelled as an association list:
replace in place when the key exists, append otherwise. -/
def jsUpsert : List (Str × Json) → Str → Json → List (Str × Json)
  | [], k, v => [(k, v)]
  | (k', v') :: rest, k, v =>
    if k' = k then (k', v) :: rest else (k', v') :: jsUpsert rest k v

/-- Mutate the first element satisfying `p` (JS `find` + in-place mutation). -/
def updateFirst (p : α → Bool) (f : α → α) : List α → List α
  | [] => []
  | x :: rest => if p x then f x :: rest else x :: updateFirst p f rest

/-- `workflowConfig.variables[environment]` after the
`!workflowConfig || !workflowConfig.variables || !variables[environment]`
guard of `injectEnvironmentVariables`. -/
def lookupVariables (managed : List ManagedWorkflowCfg) (baseName : Str)
    (environment : String) : Option (List (Str × Json)) :=
  match managed.find? (fun w => w.baseName == baseName) with
  | none => none
  | some cfg =>
    match cfg.variables' with
    | none => none
    | some vs => (vs.find? (fun kv => kv.1 = environment)).map (fun kv => kv.2)

/-- The script written into the configuration node:
`return ${JSON.stringify(envVariables, null, 2)};`. -/
def renderJsCode (vars : List (Str × Json)) : Str :=
  "return ".data ++ jsonStringify 0 (Json.obj vars) ++ [';']

/-- The cloned variable map after the optional
`envVariables.version = version` (only when a version is supplied and the
environment is `prod`). -/
def envVariablesFor (vars : List (Str × Json)) (environment : String)
    (version : Option Str) : List (Str × Json) :=
  match version with
  | some v => if environment = "prod" then jsUpsert vars "version".data (Json.str v) else vars
  | none => vars

/-- Connection rewiring of the freshly created Configuration node:
`connections[trigger].main[0] = [{node: "Configuration", type: "main",
index: 0}]`, creating `{ main: [[]] }` first when the trigger has no entry. -/
def connUpsertTrigger (conns : Connections) (trigName : Str) : Connections :=
  let target : ConnTarget := ⟨"Configuration".data, "main".data, 0⟩
  let setMain0 : ConnEntry → ConnEntry := fun e => ⟨[target] :: e.main.drop 1⟩
  if (conns.find? (fun kv => kv.1 == trigName)).isSome then
    updateFirst (fun kv => kv.1 == trigName) (fun kv => (kv.1, setMain0 kv.2)) conns
  else conns ++ [(trigName, setMain0 ⟨[[]]⟩)]

/-- `connections["Configuration"] = { main: [[]] }`. -/
def connSet (conns : Connections) (key : Str) (e : ConnEntry) : Connections :=
  if (conns.find? (fun kv => kv.1 == key)).isSome then
    updateFirst (fun kv => kv.1 == key) (fun kv => (kv.1, e)) conns
  else conns ++ [(key, e)]

/-- The sticky-note text, with the deployment date injected (`today` stands
for `new Date().toISOString().split('T')[0]`). -/
def noteContent (baseName version : Str) (environment : String) (today : Str) : Str :=
  "📦 **".data ++ baseName ++ "**\n\n**Version:** ".data ++ version ++
    "\n**Environment:** ".data ++ environment.data ++ "\n**Deployed:** ".data ++ today ++
    "\n\nThis workflow is managed by the release system.\nVersion is automatically injected during deployment.".data

/-- The in-place mutation of an existing version sticky note:
`versionNote.parameters.content = noteContent` plus the `prod` recoloring. -/
def updateVersionNote (content : Str) (environment : String) (n : Node) : Node :=
  let ps := { n.parameters with content := some content }
  let ps := if environment = "prod" then { ps with color := some 4 } else ps
  { n with parameters := ps }

/-- `addOrUpdateVersionStickyNote` (lines 1695-1746): update the first
matching sticky note's content (recoloring it green for `prod`), or append a
fresh one. -/
def addOrUpdateVersionStickyNote (nodes : List Node) (baseName version : Str)
    (environment : String) (today freshNoteId : Str) : List Node :=
  let content := noteContent baseName version environment today
  match nodes.find? isVersionNote with
  | some _ =>
    updateFirst isVersionNote (updateVersionNote content environment) nodes
  | none =>
    let noteParams : NodeParams :=
      { content := some content, height := some 260, width := some 280,
        color := some (if environment = "prod" then 4 else 5) }
    let newNote : Node :=
      { parameters := noteParams, type := stickyNoteType, typeVersion := 1,
        position := (-900, -200), id := freshNoteId, name := "Version Info".data }
    nodes ++ [newNote]

/-- The per-node mutation applied to the found Configuration node: a code
node gets its `parameters.jsCode` overwritten; a non-code node is replaced
in place by a code node (type, typeVersion and a fresh `parameters` object
holding only `jsCode`; id, name and position are re-assigned to their own
values by the script, a no-op). -/
def overwriteConfigNode (script : Str) (n : Node) : Node :=
  if n.type == codeNodeType then
    { n with parameters := { n.parameters with jsCode := some script } }
  else
    { n with type := codeNodeType, typeVersion := 2,
             parameters := { jsCode := some script } }

/-- `injectEnvironmentVariables(workflowData, baseName, environment, version)`
(manage-workflows.js lines 1570-1684).  The nondeterministic fresh node ids
(`config-${Date.now()}-${random}`, `sticky-version-…`) and the current date
are explicit arguments; `version = none` models the absent/falsy argument. -/
def injectEnvironmentVariables (managed : List ManagedWorkflowCfg) (wf : Workflow)
    (baseName : Str) (environment : String) (version : Option Str)
    (freshNodeId today freshNoteId : Str) : Workflow :=
  match lookupVariables managed baseName environment with
  | none => wf
  | some vars =>
    let envVariables := envVariablesFor vars environment version
    match wf.nodes with
    | none => wf
    | some ns =>
      let script := renderJsCode envVariables
      let found := ns.find? isConfigNodeName
      let newConfigNode : Node :=
        { parameters := { jsCode := some "return \x7b\x7d;".data },
          type := codeNodeType, typeVersion := 2, position := (-720, -80),
          id := freshNodeId, name := "Configuration".data }
      let ns₁ :=
        match found with
        | some _ => ns
        | none => ns ++ [newConfigNode]
      let conns₁ :=
        match found with
        | some _ => wf.connections
        | none =>
          match ns₁.find? isTriggerNode, wf.connections with
          | some trig, some conns =>
            some (connSet (connUpsertTrigger conns trig.name) "Configuration".data ⟨[[]]⟩)
          | _, _ => wf.connections
      let ns₂ := updateFirst isConfigNodeName (overwriteConfigNode script) ns₁
      let ns₃ :=
        match version with
        | some v => addOrUpdateVersionStickyNote ns₂ baseName v environment today freshNoteId
        | none => ns₂
      { wf with nodes := some ns₃, connections := conns₁ }

/-- The script parameter (`parameters.jsCode`) of the first node named
`Configuration` or `Variables`, when the workflow has a node array and such a
node: the payload C4 compares across runs. -/
def configNodeJsCode (wf : Workflow) : Option (Option Str) :=
  match wf.nodes with
  | none => none
  | some ns => (ns.find? isConfigNodeName).map (fun n => n.parameters.jsCode)

/-! ## PromotionEngine: deploy reconciliation (`deploySingleWorkflow`) -/

/-- A row of the `GET /api/v1/workflows` listing: the fields reconciliation
uses (`id`, mutable display `name`, `active`). -/
structure RemoteWorkflow where
  id : Str
  name : Str
  active : Bool := false
deriving DecidableEq

/-- A write call issued against the remote service. -/
inductive ApiCall where
  | put (id : Str) (data : Workflow)
  | post (data : Workflow)
deriving DecidableEq

/-- The per-workflow result record of `deploySingleWorkflow`. -/
structure DeployResult where
  baseName : Str
  action : String
  status : String
  devName : Str
  prodName : Str
  prodId : Str
deriving DecidableEq

/-- `cleanupNodeWebhookIds(workflowData)` (lines 1686-1692): clear every
node's `webhookId`. -/
def cleanupNodeWebhookIds (wf : Workflow) : Workflow :=
  match wf.nodes with
  | some ns => { wf with nodes := some (ns.map (fun n => { n with webhookId := none })) }
  | none => wf

/-- The `{...devWorkflowParsed, id: undefined, name: prodWorkflowName,
active: undefined, …}` spread of `deploySingleWorkflow`: rename to the prod
display name and strip the bookkeeping fields (of those, only `active` is
part of the model; `id`, `tags`, `meta`, … are not represented). -/
def cleanForProd (devData : Workflow) (prodName : Str) : Workflow :=
  { devData with name := prodName, active := none }

/-- `deploySingleWorkflow(devWorkflow)` (second variant, lines 917-982):
read the exported dev copy (`devFileData`), rename and clean it, inject the
`prod` variables (no version), strip webhook ids, then reconcile against the
freshly fetched remote list by exact display-name equality — `PUT` on the
matching workflow's id, else a single `POST`.  Returns the write calls
issued and the result record; `createdId` stands for the id the remote
service assigns on create. -/
def deploySingleWorkflow (managed : List ManagedWorkflowCfg)
    (allWorkflows : List RemoteWorkflow) (devName : Str) (devFileData : Workflow)
    (freshNodeId today freshNoteId createdId : Str) :
    List ApiCall × DeployResult :=
  let baseName := getBaseNameFromWorkflowName devName
  let prodWorkflowName := baseName ++ getSuffix "prod"
  let prodData₀ := cleanForProd devFileData prodWorkflowName
  let prodData₁ := injectEnvironmentVariables managed prodData₀ baseName "prod" none
    freshNodeId today freshNoteId
  let prodData := cleanupNodeWebhookIds prodData₁
  match allWorkflows.find? (fun w => w.name == prodWorkflowName) with
  | some existing =>
    ([ApiCall.put existing.id prodData],
      { baseName := baseName, action := "updated", status := "success",
        devName := devName, prodName := prodWorkflowName, prodId := existing.id })
  | none =>
    ([ApiCall.post prodData],
      { baseName := baseName, action := "created", status := "success",
        devName := devName, prodName := prodWorkflowName, prodId := createdId })

/-! ## BackupEngine: retention cleanup (`cleanupOldBackups`) -/

/-- One backup directory as `cleanupOldBackups` sees it: directory name plus
filesystem creation (birth) time in milliseconds. -/
structure BackupDirInfo where
  name : Str
  created : Nat
deriving DecidableEq

/-- `cleanupOldBackups(keepCount)` (lines 644-682 and 1385-1423): sort the
backup directories newest-created-first (comparator
`(a, b) => b.created - a.created`), return early when there are at most
`keepCount`, else delete `slice(keepCount)`.  Result: (remaining on disk,
deleted). -/
def cleanupOldBackups (backupDirs : List BackupDirInfo) (keepCount : Nat) :
    List BackupDirInfo × List BackupDirInfo :=
  let sorted := backupDirs.insertionSort (fun a b => b.created ≤ a.created)
  if backupDirs.length ≤ keepCount then (backupDirs, [])
  else (sorted.take keepCount, sorted.drop keepCount)

/-! ## BackupEngine: backup creation (`createBackup`) -/

/-- An `ExportResult`-style per-workflow backup record. -/
structure BackupItem where
  name : Str
  status : String
  error : Option Str := none
deriving DecidableEq

/-- The `_backup_metadata.json` manifest written by `createBackup`. -/
structure BackupMetadata where
  backupName : Str
  environment : String
  createdAt : Str
  workflowCount : Nat
  failedCount : Nat
  workflows : List BackupItem
deriving DecidableEq

/-- Result of `createBackup`; `nullResult` models the literal `return null`
of the first variant's zero-workflow branch. -/
inductive CreateBackupResult where
  | nullResult
  | ok (backupName : Str) (metadata : BackupMetadata)
deriving DecidableEq

/-- `createBackup(environment, customName)` (first variant, lines 584-642):
zero matching workflows → `return null`, else export each workflow and write
the manifest.  The per-entity export outcomes (each an HTTP round trip) are
abstracted as the `results` list the export loop produces. -/
def createBackupV1 (environment : String) (backupName createdAt : Str)
    (workflowsToBackup : List RemoteWorkflow) (results : List BackupItem) :
    CreateBackupResult :=
  if workflowsToBackup.isEmpty then CreateBackupResult.nullResult
  else
    CreateBackupResult.ok backupName
      { backupName := backupName, environment := environment, createdAt := createdAt,
        workflowCount := (results.filter (fun r => r.status = "success")).length,
        failedCount := (results.filter (fun r => r.status = "failed")).length,
        workflows := results }

/-- `createBackup(environment, customName)` (second variant, lines
1310-1383): zero matching workflows → a well-formed empty backup object
(`workflowCount: 0`) so callers can continue. -/
def createBackup (environment : String) (backupName createdAt : Str)
    (workflowsToBackup : List RemoteWorkflow) (results : List BackupItem) :
    CreateBackupResult :=
  if workflowsToBackup.isEmpty then
    CreateBackupResult.ok backupName
      { backupName := backupName, environment := environment, createdAt := createdAt,
        workflowCount := 0, failedCount := 0, workflows := [] }
  else
    CreateBackupResult.ok backupName
      { backupName := backupName, environment := environment, createdAt := createdAt,
        workflowCount := (results.filter (fun r => r.status = "success")).length,
        failedCount := (results.filter (fun r => r.status = "failed")).length,
        workflows := results }

/-! ## BackupVerifier (`deployment-manager.js`, second part, lines 606-813) -/

/-- JS truthiness of an optional string field (`undefined`, `null` and `''`
are falsy). -/
def falsyStr : Option Str → Bool
  | none => true
  | some s => s.isEmpty

/-- JS truthiness of an optional numeric field (`undefined`, `null` and `0`
are falsy). -/
def falsyNum : Option Int → Bool
  | none => true
  | some n => n == 0

/-- The metadata fields `verifyMetadata` reads, each optional because the
manifest is untrusted JSON. -/
structure MetadataJson where
  backupName : Option Str := none
  environment : Option Str := none
  createdAt : Option Str := none
  workflowCount : Option Int := none
deriving DecidableEq

/-- The parse state of `_backup_metadata.json`. -/
inductive MetaFile where
  | missing
  | invalid
  | parsed (m : MetadataJson)
deriving DecidableEq

/-- A node as the verifier's per-file check reads it. -/
structure NodeJson where
  name : Option Str := none
  type : Option Str := none
deriving DecidableEq

/-- A workflow file's parsed fields: `name`, `nodes` (none = absent),
`connections` (`some b` = present with `b = (typeof === 'object')`). -/
structure WorkflowJson where
  name : Option Str := none
  nodes : Option (List NodeJson) := none
  connections : Option Bool := none
deriving DecidableEq

/-- The parse state of one workflow file. -/
inductive WfFile where
  | invalid
  | parsed (w : WorkflowJson)
deriving DecidableEq

/-- What the filesystem shows `verifyBackup` for one backup directory:
existence, manifest state, the non-sidecar `.json` files (name, parse
state), the directory age in hours and the total byte size. -/
structure BackupSnapshot where
  dirExists : Bool
  metaFile : MetaFile
  files : List (Str × WfFile)
  ageHours : Nat
  totalSize : Nat

/-- `verifyMetadata(backupPath, backupName)` (lines 636-665): missing file →
error; unparseable → error; else one error per falsy required field plus a
name-mismatch warning.  Result: (errors, warnings). -/
def verifyMetadata (backupName : Str) (mf : MetaFile) : List Str × List Str :=
  match mf with
  | .missing => (["Backup metadata file missing".data], [])
  | .invalid => (["Invalid metadata JSON".data], [])
  | .parsed m =>
    let errs :=
      (if falsyStr m.backupName then ["Missing metadata field: backupName".data] else []) ++
      (if falsyStr m.environment then ["Missing metadata field: environment".data] else []) ++
      (if falsyStr m.createdAt then ["Missing metadata field: createdAt".data] else []) ++
      (if falsyNum m.workflowCount then ["Missing metadata field: workflowCount".data] else [])
    let warns :=
      if m.backupName ≠ some backupName then
        ["Backup name mismatch: expected ".data ++ backupName ++ ", got ".data ++
          (match m.backupName with | some s => s | none => "undefined".data)]
      else []
    (errs, warns)

/-- The indexed node check of `verifyWorkflowFile`: `Node ${i} missing name
or type` for every node with a falsy `name` or `type`. -/
def nodeErrors (fileName : Str) (i : Nat) : List NodeJson → List Str
  | [] => []
  | n :: rest =>
    (if falsyStr n.name || falsyStr n.type then
      [fileName ++ ": Node ".data ++ (toString i).data ++ " missing name or type".data]
    else []) ++ nodeErrors fileName (i + 1) rest

/-- `verifyWorkflowFile(filePath, fileName)` (lines 683-724): parse failure →
error; else required-field errors, suffix-convention and empty-node warnings,
per-node checks and the connections-structure check. -/
def verifyWorkflowFile (fileName : Str) (wff : WfFile) : List Str × List Str :=
  match wff with
  | .invalid => ([fileName ++ ": Invalid JSON".data], [])
  | .parsed w =>
    let fieldErrs :=
      (if falsyStr w.name then [fileName ++ ": Missing required field: name".data] else []) ++
      (if w.nodes = none then [fileName ++ ": Missing required field: nodes".data] else []) ++
      (if w.connections = none then [fileName ++ ": Missing required field: connections".data] else [])
    let suffixWarns :=
      match w.name with
      | some nm =>
        if ¬nm.isEmpty && ¬jsIncludes nm "-".data then
          [fileName ++ ": Workflow name may not follow suffix convention: ".data ++ nm]
        else []
      | none => []
    let emptyWarns :=
      match w.nodes with
      | some [] => [fileName ++ ": Workflow has no nodes".data]
      | _ => []
    let nodeErrs :=
      match w.nodes with
      | some ns => nodeErrors fileName 0 ns
      | none => []
    let connErrs :=
      match w.connections with
      | some false => [fileName ++ ": Invalid connections structure".data]
      | _ => []
    (fieldErrs ++ nodeErrs ++ connErrs, suffixWarns ++ emptyWarns)

/-- `verifyWorkflowFiles(backupPath, backupName)` (lines 667-681): zero
entity files → error, else the per-file checks in directory order. -/
def verifyWorkflowFiles (files : List (Str × WfFile)) : List Str × List Str :=
  if files.isEmpty then (["No workflow files found in backup".data], [])
  else
    files.foldl (fun acc f =>
      let r := verifyWorkflowFile f.1 f.2
      (acc.1 ++ r.1, acc.2 ++ r.2)) ([], [])

/-- The duplicate-name scan of `verifyBackupIntegrity`: an error per file
whose (truthy) workflow name was already seen. -/
def dupNameErrors (seen : List Str) : List (Str × WfFile) → List Str
  | [] => []
  | (_, WfFile.invalid) :: rest => dupNameErrors seen rest
  | (_, WfFile.parsed w) :: rest =>
    match w.name with
    | some nm =>
      if nm.isEmpty then dupNameErrors seen rest
      else
        (if seen.contains nm then ["Duplicate workflow name found: ".data ++ nm] else []) ++
          dupNameErrors (seen ++ [nm]) rest
    | none => dupNameErrors seen rest

/-- `verifyBackupIntegrity(backupPath, backupName)` (lines 726-787): age
warning beyond one week (`Math.round(ageInHours / 24)` days), small-size
warning under 1000 bytes, duplicate-name errors, and the manifest
`workflowCount` versus actual-file-count warning. -/
def verifyBackupIntegrity (s : BackupSnapshot) : List Str × List Str :=
  let ageWarns :=
    if 24 * 7 < s.ageHours then
      ["Backup is ".data ++ (toString ((s.ageHours + 12) / 24)).data ++ " days old".data]
    else []
  let sizeWarns :=
    if s.totalSize < 1000 then
      ["Backup size seems unusually small: ".data ++ (toString s.totalSize).data ++ " bytes".data]
    else []
  let dupErrs := dupNameErrors [] s.files
  let countWarns :=
    match s.metaFile with
    | .parsed m =>
      if m.workflowCount ≠ some (s.files.length : Int) then
        ["Metadata workflow count does not match actual files".data]
      else []
    | _ => []
  (dupErrs, ageWarns ++ sizeWarns ++ countWarns)

/-- `verifyBackup(backupName)` (lines 612-634): missing directory → a single
error and `false`; else run the metadata, per-file and integrity checks and
return `errors.length === 0` together with the accumulated errors and
warnings. -/
def verifyBackup (backupName : Str) (s : BackupSnapshot) :
    Bool × List Str × List Str :=
  if s.dirExists then
    let r1 := verifyMetadata backupName s.metaFile
    let r2 := verifyWorkflowFiles s.files
    let r3 := verifyBackupIntegrity s
    let errors := r1.1 ++ r2.1 ++ r3.1
    let warnings := r1.2 ++ r2.2 ++ r3.2
    (errors.isEmpty, errors, warnings)
  else (false, ["Backup directory not found: ".data ++ backupName], [])

/-! ## Concrete fixtures used by witness instantiations -/

/-- A one-row managed-workflow config with `prod` variables. -/
def demoManaged : List ManagedWorkflowCfg :=
  [⟨"Order Sync".data, some [("prod", [("apiUrl".data, Json.str "https://prod.example".data)])]⟩]

/-- A single manual-trigger node. -/
def demoTriggerNode : Node :=
  { id := "t1".data, name := "When clicking".data,
    type := "n8n-nodes-base.manualTrigger".data, typeVersion := 1,
    position := (0, 0), parameters := {} }

/-- A dev workflow holding only the trigger node. -/
def demoWorkflow : Workflow :=
  { name := "Order Sync-prod".data, nodes := some [demoTriggerNode],
    connections := some [] }

/-- A remote listing already holding the prod copy. -/
def demoRemote : List RemoteWorkflow :=
  [⟨"w1".data, "Order Sync-prod".data, true⟩]

/-- Five backup directories with distinct creation times. -/
def demoBackups : List BackupDirInfo :=
  [⟨"backup_a".data, 10⟩, ⟨"backup_b".data, 20⟩, ⟨"backup_c".data, 30⟩,
   ⟨"backup_d".data, 40⟩, ⟨"backup_e".data, 50⟩]

/-- One well-formed backed-up workflow file. -/
def demoGoodFile : Str × WfFile :=
  ("order_sync.json".data,
    WfFile.parsed
      { name := some "Order Sync-prod".data,
        nodes := some [{ name := some "n1".data, type := some "t1".data }],
        connections := some true })

/-- A backup directory whose manifest sidecar is missing. -/
def demoSnapshotNoMeta : BackupSnapshot :=
  { dirExists := true, metaFile := MetaFile.missing, files := [demoGoodFile],
    ageHours := 10, totalSize := 5000 }

/-- A structurally complete backup that is ten days old. -/
def demoSnapshotOld : BackupSnapshot :=
  { dirExists := true,
    metaFile := MetaFile.parsed
      { backupName := some "backup_prod_20260101_000000".data,
        environment := some "prod".data,
        createdAt := some "2026-01-01T00:00:00Z".data, workflowCount := some 1 },
    files := [demoGoodFile], ageHours := 240, totalSize := 5000 }

/-- A backup whose manifest records `workflowCount: 0`. -/
def demoSnapshotZeroCount : BackupSnapshot :=
  { dirExists := true,
    metaFile := MetaFile.parsed
      { backupName := some "backup_prod_20260101_000000".data,
        environment := some "prod".data,
        createdAt := some "2026-01-01T00:00:00Z".data, workflowCount := some 0 },
    files := [demoGoodFile], ageHours := 10, totalSize := 5000 }

/-! ## Helper lemmas on the string model -/

theorem jsEndsWith_append (b suf : Str) : jsEndsWith (b ++ suf) suf = true := by
  simp [jsEndsWith, List.suffix_append]

theorem getLast?_of_suffix {l₁ l₂ : Str} (h : l₁ <:+ l₂) (h₁ : l₁ ≠ []) :
    l₂.getLast? = l₁.getLast? := by
  obtain ⟨t, rfl⟩ := h
  rw [List.getLast?_append]
  cases hl : l₁.getLast? with
  | none => exact absurd (List.getLast?_eq_none_iff.mp hl) h₁
  | some a => rfl

theorem jsEndsWith_append_of_last_ne (b l suf : Str) (hl : l ≠ []) (hsuf : suf ≠ [])
    (hne : suf.getLast? ≠ l.getLast?) : jsEndsWith (b ++ l) suf = false := by
  simp only [jsEndsWith, decide_eq_false_iff_not]
  intro hsufx
  have h1 := getLast?_of_suffix hsufx hsuf
  have h2 : (b ++ l).getLast? = l.getLast? := getLast?_of_suffix (List.suffix_append b l) hl
  exact hne (h1 ▸ h2)

theorem take_sub_append (b suf : Str) :
    (b ++ suf).take ((b ++ suf).length - suf.length) = b := by
  rw [List.length_append, Nat.add_sub_cancel, List.take_left]

theorem getSuffix_dev : getSuffix "dev" = "-dev".data := rfl

theorem getSuffix_prod : getSuffix "prod" = "-prod".data := rfl

theorem getBaseName_strip_dev (b : Str) :
    getBaseNameFromWorkflowName (b ++ "-dev".data) = b := by
  have h1 : jsEndsWith (b ++ "-dev".data) "-dev".data = true :=
    jsEndsWith_append b "-dev".data
  rw [getBaseNameFromWorkflowName, h1]
  simp only [if_true]
  exact take_sub_append b "-dev".data

theorem getBaseName_strip_prod (b : Str) :
    getBaseNameFromWorkflowName (b ++ "-prod".data) = b := by
  have h1 : jsEndsWith (b ++ "-prod".data) "-dev".data = false := by
    apply jsEndsWith_append_of_last_ne <;> decide
  have h2 : jsEndsWith (b ++ "-prod".data) "-prod".data = true :=
    jsEndsWith_append b "-prod".data
  rw [getBaseNameFromWorkflowName, h1, h2]
  simp only [Bool.false_eq_true, if_false, if_true]
  show (b ++ "-prod".data).take ((b ++ "-prod".data).length - 5) = b
  exact take_sub_append b "-prod".data

/-- C8: for every base name `b` and every environment `e` of the configured
suffix table (`dev`, `prod`), stripping the suffix from the display name
`b ++ suffixFor e` recovers `b` unchanged:
`getBaseNameFromWorkflowName (b ++ getSuffix e) = b`. -/
theorem baseName_suffix_roundTrip (b : Str) (e : String)
    (he : e = "dev" ∨ e = "prod") :
    getBaseNameFromWorkflowName (b ++ getSuffix e) = b := by
  rcases he with rfl | rfl
  · rw [getSuffix_dev]; exact getBaseName_strip_dev b
  · rw [getSuffix_prod]; exact getBaseName_strip_prod b

/-- Witness for `baseName_suffix_roundTrip` at a concrete base name and
environment. -/
theorem baseName_suffix_roundTrip_witness :
    getBaseNameFromWorkflowName ("Order Sync".data ++ getSuffix "prod") = "Order Sync".data :=
  baseName_suffix_roundTrip "Order Sync".data "prod" (Or.inr rfl)

/-- C7 counterexample: the second `manage-workflows.js` variant's
`getEnvironmentFromWorkflowName` (lines 780-784) returns the default `dev`,
not the sentinel `unknown`, on a display name that ends with no configured
suffix. -/
theorem getEnvironment_unmatched_counterexample :
    jsEndsWith "My Workflow".data "-dev".data = false ∧
    jsEndsWith "My Workflow".data "-prod".data = false ∧
    getEnvironmentFromWorkflowName "My Workflow".data = "dev" ∧
    getEnvironmentFromWorkflowName "My Workflow".data ≠ "unknown" := by
  refine ⟨by decide, by decide, by decide, by decide⟩

/-- C7 (amended): on a display name ending with no configured environment
suffix, the first `manage-workflows.js` variant (lines 80-85) and the
validator's `getEnvironment` (lines 225-229) return the sentinel `unknown`,
while the second `manage-workflows.js` variant (lines 780-784) instead
defaults to `dev`. -/
theorem getEnvironment_unmatched_amended :
    (∀ (st : Settings) (name : Str),
      ¬(st.devSuffix <:+ name) → ¬(st.prodSuffix <:+ name) →
      ¬(st.stagingSuffix <:+ name) →
      getEnvironmentFromWorkflowNameV1 st name = "unknown") ∧
    (∀ name : Str, ¬("-dev".data <:+ name) → ¬("-prod".data <:+ name) →
      getEnvironment name = "unknown") ∧
    (∀ name : Str, ¬("-dev".data <:+ name) → ¬("-prod".data <:+ name) →
      getEnvironmentFromWorkflowName name = "dev") := by
  refine ⟨?_, ?_, ?_⟩
  · intro st name h1 h2 h3
    simp [getEnvironmentFromWorkflowNameV1, jsEndsWith, h1, h2, h3]
  · intro name h1 h2
    simp [getEnvironment, jsEndsWith, h1, h2]
  · intro name h1 h2
    simp [getEnvironmentFromWorkflowName, jsEndsWith, h1, h2]

/-- Witness for `getEnvironment_unmatched_amended` at the concrete unmatched
name `My Workflow`. -/
theorem getEnvironment_unmatched_amended_witness :
    getEnvironmentFromWorkflowNameV1
      ⟨"-dev".data, "-prod".data, "-staging".data⟩ "My Workflow".data = "unknown" ∧
    getEnvironment "My Workflow".data = "unknown" ∧
    getEnvironmentFromWorkflowName "My Workflow".data = "dev" :=
  ⟨getEnvironment_unmatched_amended.1 ⟨"-dev".data, "-prod".data, "-staging".data⟩
      "My Workflow".data (by decide) (by decide) (by decide),
    getEnvironment_unmatched_amended.2.1 "My Workflow".data (by decide) (by decide),
    getEnvironment_unmatched_amended.2.2 "My Workflow".data (by decide) (by decide)⟩

/-- C2 counterexample: the normalisation regex `[^a-zA-Z0-9\s-]` strips the
underscore, so the base name `order_sync` maps to `ordersync.json`, not to
`order_sync.json`; `Order Sync` and `order_sync` therefore do not collide
(in either variant of `generateFileName`). -/
theorem generateFileName_order_sync_counterexample :
    generateFileName "order_sync".data = "ordersync.json".data ∧
    generateFileName "order_sync".data ≠ "order_sync.json".data ∧
    generateFileName "Order Sync".data = "order_sync.json".data ∧
    generateFileName "Order Sync".data ≠ generateFileName "order_sync".data ∧
    generateFileNameV1 "order_sync".data = "ordersync.json".data := by
  refine ⟨by decide, by decide, by decide, by decide, by decide⟩

/-- C2 (amended): `generateFileName` is deterministic (equal inputs give
equal output strings); the silent-overwrite collision exists but for
whitespace/case variants: `Order Sync` and `order sync` both normalize to
`order_sync.json`, while `order_sync` normalizes to `ordersync.json` (its
underscore is stripped by the character-class regex). -/
theorem generateFileName_deterministic_and_collision :
    (∀ s₁ s₂ : Str, s₁ = s₂ → generateFileName s₁ = generateFileName s₂) ∧
    generateFileName "Order Sync".data = "order_sync.json".data ∧
    generateFileName "order sync".data = "order_sync.json".data ∧
    generateFileName "order_sync".data = "ordersync.json".data :=
  ⟨fun _ _ h => h ▸ rfl, by decide, by decide, by decide⟩

/-- Witness for `generateFileName_deterministic_and_collision` at a concrete
input. -/
theorem generateFileName_deterministic_witness :
    generateFileName "Order Sync".data = generateFileName "Order Sync".data :=
  generateFileName_deterministic_and_collision.1 "Order Sync".data "Order Sync".data rfl

/-- C3 counterexample: `suggestNextVersion` coerces a zero major component to
`1` (`parts[0] || 1`), so `v0.1.2` suggests `v1.1.3`: the major component is
not preserved. -/
theorem suggestNextVersion_zero_major_counterexample :
    suggestNextVersion (some "v0.1.2".data) = "v1.1.3".data ∧
    suggestNextVersion (some "v0.1.2".data) ≠ "v0.1.3".data := by
  refine ⟨by decide, by decide⟩

theorem splitOnDot_no_dot (b : Str) (h : '.' ∉ b) : splitOnDot b = [b] := by
  induction b with
  | nil => rfl
  | cons c rest ih =>
    have hc : ¬(c = '.') := fun hc => h (hc ▸ List.mem_cons_self c rest)
    have hrest : '.' ∉ rest := fun hm => h (List.mem_cons_of_mem c hm)
    rw [splitOnDot, if_neg hc, ih hrest]

theorem splitOnDot_append (a r : Str) (h : '.' ∉ a) :
    splitOnDot (a ++ '.' :: r) = a :: splitOnDot r := by
  induction a with
  | nil => simp [splitOnDot]
  | cons c rest ih =>
    have hc : ¬(c = '.') := fun hc => h (hc ▸ List.mem_cons_self c rest)
    have hrest : '.' ∉ rest := fun hm => h (List.mem_cons_of_mem c hm)
    rw [List.cons_append, splitOnDot, if_neg hc, ih hrest]

theorem isJsSpace_of_isDigit {c : Char} (h : c.isDigit = true) : isJsSpace c = false := by
  by_contra hne
  have hsp : isJsSpace c = true := by
    cases hb : isJsSpace c
    · exact absurd hb hne
    · rfl
  simp only [isJsSpace, Bool.or_eq_true, beq_iff_eq] at hsp
  rcases hsp with ((((rfl | rfl) | rfl) | rfl) | rfl) | rfl <;> simp [Char.isDigit] at h

theorem takeWhile_isDigit_all (d : Str) (h : ∀ ch ∈ d, ch.isDigit = true) :
    d.takeWhile Char.isDigit = d := by
  induction d with
  | nil => rfl
  | cons c rest ih =>
    rw [List.takeWhile_cons, if_pos (h c (List.mem_cons_self c rest)),
      ih fun ch hm => h ch (List.mem_cons_of_mem c hm)]

theorem parseIntOr0_digits (d : Str) (h : ∀ ch ∈ d, ch.isDigit = true) :
    parseIntOr0 d = (digitsVal d : Int) := by
  cases d with
  | nil => rfl
  | cons c rest =>
    have hc : c.isDigit = true := h c (List.mem_cons_self c rest)
    have hdrop : (c :: rest).dropWhile isJsSpace = c :: rest := by
      rw [List.dropWhile_cons, if_neg]
      simp [isJsSpace_of_isDigit hc]
    have hminus : ¬(c = '-') := by rintro rfl; simp [Char.isDigit] at hc
    have hplus : ¬(c = '+') := by rintro rfl; simp [Char.isDigit] at hc
    have htake : (c :: rest).takeWhile Char.isDigit = c :: rest :=
      takeWhile_isDigit_all _ h
    rw [parseIntOr0, jsParseInt, hdrop]
    simp only [if_neg hminus, if_neg hplus, jsDigitsOf, htake]
    rfl

theorem not_dot_of_digits {d : Str} (h : ∀ ch ∈ d, ch.isDigit = true) : '.' ∉ d := by
  intro hm
  have := h '.' hm
  simp [Char.isDigit] at this

/-- C3 (amended): `suggestNextVersion` with no current version returns
`v1.0.0`; on a version `v<a>.<b>.<c>` with decimal-digit components whose
major component is nonzero it increments only the patch component,
preserving major and minor (e.g. `v1.2.3` yields `v1.2.4`).  A zero (or
unparseable) major component, however, is coerced to `1` by `parts[0] || 1`
(see the counterexample). -/
theorem suggestNextVersion_amended :
    suggestNextVersion none = "v1.0.0".data ∧
    ∀ a b c : Str, (∀ ch ∈ a, ch.isDigit = true) → (∀ ch ∈ b, ch.isDigit = true) →
      (∀ ch ∈ c, ch.isDigit = true) → digitsVal a ≠ 0 →
      suggestNextVersion (some ('v' :: (a ++ '.' :: (b ++ '.' :: c)))) =
        'v' :: (intToStr (digitsVal a) ++ '.' ::
          (intToStr (digitsVal b) ++ '.' :: intToStr ((digitsVal c : Int) + 1))) := by
  refine ⟨rfl, ?_⟩
  intro a b c ha hb hc h0
  have hsplit : splitOnDot (a ++ '.' :: (b ++ '.' :: c)) = [a, b, c] := by
    rw [splitOnDot_append a _ (not_dot_of_digits ha),
      splitOnDot_append b _ (not_dot_of_digits hb),
      splitOnDot_no_dot c (not_dot_of_digits hc)]
  have hmajor : ¬((digitsVal a : Int) = 0) := by
    intro hz
    exact h0 (by exact_mod_cast hz)
  rw [suggestNextVersion]
  simp only [List.isEmpty_cons, if_neg Bool.false_ne_true, stripLeadingV, hsplit,
    List.map_cons, List.map_nil, parseIntOr0_digits a ha, parseIntOr0_digits b hb,
    parseIntOr0_digits c hc, List.getD_cons_zero, List.getD_cons_succ, if_neg hmajor]

/-- Witness for `suggestNextVersion_amended`: `v1.2.3` yields `v1.2.4`. -/
theorem suggestNextVersion_amended_witness :
    suggestNextVersion (some "v1.2.3".data) = "v1.2.4".data :=
  (suggestNextVersion_amended.2 "1".data "2".data "3".data
    (by decide) (by decide) (by decide) (by decide)).trans (by decide)


/-! ## VariableInjector lemmas (C4) -/

theorem overwriteConfigNode_name (script : Str) (n : Node) :
    (overwriteConfigNode script n).name = n.name := by
  unfold overwriteConfigNode; split <;> rfl

theorem overwriteConfigNode_jsCode (script : Str) (n : Node) :
    (overwriteConfigNode script n).parameters.jsCode = some script := by
  unfold overwriteConfigNode; split <;> rfl

theorem updateVersionNote_name (c : Str) (e : String) (n : Node) :
    (updateVersionNote c e n).name = n.name := by
  unfold updateVersionNote; split <;> rfl

theorem updateVersionNote_jsCode (c : Str) (e : String) (n : Node) :
    (updateVersionNote c e n).parameters.jsCode = n.parameters.jsCode := by
  unfold updateVersionNote; split <;> rfl

theorem isConfigNodeName_overwrite (script : Str) (n : Node) :
    isConfigNodeName (overwriteConfigNode script n) = isConfigNodeName n := by
  unfold isConfigNodeName; rw [overwriteConfigNode_name]

theorem isConfigNodeName_updateVersionNote (c : Str) (e : String) (n : Node) :
    isConfigNodeName (updateVersionNote c e n) = isConfigNodeName n := by
  unfold isConfigNodeName; rw [updateVersionNote_name]

theorem find?_updateFirst_self {α} (p : α → Bool) (g : α → α)
    (hpg : ∀ a, p (g a) = p a) :
    ∀ l : List α, (updateFirst p g l).find? p = (l.find? p).map g := by
  intro l
  induction l with
  | nil => rfl
  | cons x rest ih =>
    simp only [updateFirst]
    by_cases hx : p x = true
    · rw [if_pos hx, List.find?_cons_of_pos _ ((hpg x).trans hx),
        List.find?_cons_of_pos _ hx, Option.map_some']
    · have hgx : ¬p (g x) = true := by rw [hpg]; exact hx
      rw [if_neg hx, List.find?_cons_of_neg _ hx, List.find?_cons_of_neg _ hx]
      exact ih

theorem find?_map_updateFirst {α β} (p q : α → Bool) (g : α → α) (proj : α → β)
    (hpg : ∀ a, p (g a) = p a) (hproj : ∀ a, proj (g a) = proj a) :
    ∀ l : List α, ((updateFirst q g l).find? p).map proj = (l.find? p).map proj := by
  intro l
  induction l with
  | nil => rfl
  | cons x rest ih =>
    simp only [updateFirst]
    by_cases hq : q x = true
    · rw [if_pos hq]
      by_cases hp : p x = true
      · rw [List.find?_cons_of_pos _ ((hpg x).trans hp), List.find?_cons_of_pos _ hp,
          Option.map_some', Option.map_some', hproj]
      · have hgx : ¬p (g x) = true := by rw [hpg]; exact hp
        rw [List.find?_cons_of_neg _ hgx, List.find?_cons_of_neg _ hp]
    · rw [if_neg hq]
      by_cases hp : p x = true
      · rw [List.find?_cons_of_pos _ hp, List.find?_cons_of_pos _ hp]
      · rw [List.find?_cons_of_neg _ hp, List.find?_cons_of_neg _ hp]
        exact ih

theorem configJsCode_addOrUpdateVersionStickyNote (nodes : List Node)
    (baseName version : Str) (environment : String) (today freshNoteId : Str) :
    ((addOrUpdateVersionStickyNote nodes baseName version environment today
        freshNoteId).find? isConfigNodeName).map (fun n => n.parameters.jsCode) =
      (nodes.find? isConfigNodeName).map (fun n => n.parameters.jsCode) := by
  unfold addOrUpdateVersionStickyNote
  cases hfv : nodes.find? isVersionNote with
  | some m =>
    simp only
    exact find?_map_updateFirst _ _ _ _
      (fun a => isConfigNodeName_updateVersionNote _ _ a)
      (fun a => updateVersionNote_jsCode _ _ a) nodes
  | none =>
    simp only [List.find?_append]
    cases hfc : nodes.find? isConfigNodeName with
    | some m => rfl
    | none =>
      simp only [Option.none_or]
      rw [List.find?_cons_of_neg _ (by simp only [isConfigNodeName]; decide), List.find?_nil]

theorem inject_nodes_and_jsCode (managed : List ManagedWorkflowCfg) (wf : Workflow)
    (baseName : Str) (environment : String) (version : Option Str)
    (freshNodeId today freshNoteId : Str) (vars : List (Str × Json))
    (hv : lookupVariables managed baseName environment = some vars)
    (ns : List Node) (hn : wf.nodes = some ns) :
    (injectEnvironmentVariables managed wf baseName environment version
        freshNodeId today freshNoteId).nodes.isSome = true ∧
    configNodeJsCode (injectEnvironmentVariables managed wf baseName environment
        version freshNodeId today freshNoteId) =
      some (some (renderJsCode (envVariablesFor vars environment version))) := by
  unfold injectEnvironmentVariables
  rw [hv, hn]
  simp only
  constructor
  · rfl
  · unfold configNodeJsCode
    simp only
    -- reduce to the jsCode of the first Configuration/Variables node
    cases hver : version with
    | some v =>
      simp only
      rw [configJsCode_addOrUpdateVersionStickyNote]
      rw [find?_updateFirst_self _ _ (fun a => isConfigNodeName_overwrite _ a)]
      cases hfound : ns.find? isConfigNodeName with
      | some n₀ =>
        simp only [hfound, Option.map_some', overwriteConfigNode_jsCode]
      | none =>
        simp only [hfound, List.find?_append, Option.none_or]
        rw [List.find?_cons_of_pos _ (by simp only [isConfigNodeName]; decide)]
        simp only [Option.map_some', overwriteConfigNode_jsCode]
    | none =>
      simp only
      rw [find?_updateFirst_self _ _ (fun a => isConfigNodeName_overwrite _ a)]
      cases hfound : ns.find? isConfigNodeName with
      | some n₀ =>
        simp only [hfound, Option.map_some', overwriteConfigNode_jsCode]
      | none =>
        simp only [hfound, List.find?_append, Option.none_or]
        rw [List.find?_cons_of_pos _ (by simp only [isConfigNodeName]; decide)]
        simp only [Option.map_some', overwriteConfigNode_jsCode]

/-- C4: variable injection is idempotent.  For every workflow, base name,
environment and version for which the config defines variables, running
`injectEnvironmentVariables` a second time with the same arguments (the
nondeterministic fresh ids and date may differ) leaves the configuration
node's script parameter (`parameters.jsCode`) byte-identical to its value
after the first run. -/
theorem injectEnvironmentVariables_idempotent
    (managed : List ManagedWorkflowCfg) (wf : Workflow) (baseName : Str)
    (environment : String) (version : Option Str)
    (id₁ d₁ n₁ id₂ d₂ n₂ : Str) (vars : List (Str × Json))
    (hv : lookupVariables managed baseName environment = some vars) :
    configNodeJsCode (injectEnvironmentVariables managed
        (injectEnvironmentVariables managed wf baseName environment version id₁ d₁ n₁)
        baseName environment version id₂ d₂ n₂) =
      configNodeJsCode
        (injectEnvironmentVariables managed wf baseName environment version id₁ d₁ n₁) := by
  cases hn : wf.nodes with
  | none =>
    have h1 : injectEnvironmentVariables managed wf baseName environment version
        id₁ d₁ n₁ = wf := by
      unfold injectEnvironmentVariables; rw [hv, hn]
    have h2 : injectEnvironmentVariables managed wf baseName environment version
        id₂ d₂ n₂ = wf := by
      unfold injectEnvironmentVariables; rw [hv, hn]
    rw [h1, h2]
  | some ns =>
    obtain ⟨hs1, hc1⟩ := inject_nodes_and_jsCode managed wf baseName environment
      version id₁ d₁ n₁ vars hv ns hn
    cases hn2 : (injectEnvironmentVariables managed wf baseName environment version
        id₁ d₁ n₁).nodes with
    | none => rw [hn2] at hs1; simp at hs1
    | some ns' =>
      obtain ⟨_, hc2⟩ := inject_nodes_and_jsCode managed
        (injectEnvironmentVariables managed wf baseName environment version id₁ d₁ n₁)
        baseName environment version id₂ d₂ n₂ vars hv ns' hn2
      rw [hc2, hc1]

/-- Witness for `injectEnvironmentVariables_idempotent`: a concrete managed
workflow with `prod` variables, injected twice into a workflow holding a
single trigger node, yields the same configuration-node script. -/
theorem injectEnvironmentVariables_idempotent_witness :
    configNodeJsCode (injectEnvironmentVariables demoManaged
        (injectEnvironmentVariables demoManaged demoWorkflow "Order Sync".data "prod"
          (some "v1.0.0".data) "cfg-1".data "2026-01-01".data "note-1".data)
        "Order Sync".data "prod" (some "v1.0.0".data) "cfg-2".data "2026-01-02".data
        "note-2".data) =
      configNodeJsCode (injectEnvironmentVariables demoManaged demoWorkflow
        "Order Sync".data "prod" (some "v1.0.0".data) "cfg-1".data "2026-01-01".data
        "note-1".data) :=
  injectEnvironmentVariables_idempotent _ _ _ _ _ _ _ _ _ _ _ _ rfl

/-! ## PromotionEngine lemmas (C1) -/

theorem cleanupNodeWebhookIds_name (wf : Workflow) :
    (cleanupNodeWebhookIds wf).name = wf.name := by
  unfold cleanupNodeWebhookIds
  cases h : wf.nodes with
  | none => rfl
  | some ns => rfl

theorem injectEnvironmentVariables_name (managed : List ManagedWorkflowCfg)
    (wf : Workflow) (baseName : Str) (environment : String) (version : Option Str)
    (i d ni : Str) :
    (injectEnvironmentVariables managed wf baseName environment version i d ni).name =
      wf.name := by
  unfold injectEnvironmentVariables
  cases hv : lookupVariables managed baseName environment with
  | none => rfl
  | some vars =>
    cases h : wf.nodes with
    | none => rfl
    | some ns => rfl

/-- C1: deploying base name `X` from dev to prod against a freshly fetched
remote list reconciles by exact display-name equality: when the list
contains an entity named `X-prod`, the engine issues exactly one
`updateById` (`PUT`) on that entity's id and creates nothing; when no entity
named `X-prod` exists, it issues exactly one `create` (`POST`) whose payload
carries the name `X-prod`.  The last conjunct identifies the reconciliation
predicate with exact display-name equality over the whole fetched list. -/
theorem deploy_reconciles_by_exact_name (managed : List ManagedWorkflowCfg)
    (allWorkflows : List RemoteWorkflow) (X : Str) (devFileData : Workflow)
    (i d ni cid : Str) :
    (∀ w, allWorkflows.find? (fun w' => w'.name == X ++ "-prod".data) = some w →
      ∃ dta : Workflow, dta.name = X ++ "-prod".data ∧
        deploySingleWorkflow managed allWorkflows (X ++ "-dev".data) devFileData
            i d ni cid =
          ([ApiCall.put w.id dta],
            { baseName := X, action := "updated", status := "success",
              devName := X ++ "-dev".data, prodName := X ++ "-prod".data,
              prodId := w.id })) ∧
    (allWorkflows.find? (fun w' => w'.name == X ++ "-prod".data) = none →
      ∃ dta : Workflow, dta.name = X ++ "-prod".data ∧
        deploySingleWorkflow managed allWorkflows (X ++ "-dev".data) devFileData
            i d ni cid =
          ([ApiCall.post dta],
            { baseName := X, action := "created", status := "success",
              devName := X ++ "-dev".data, prodName := X ++ "-prod".data,
              prodId := cid })) ∧
    (allWorkflows.find? (fun w' => w'.name == X ++ "-prod".data) = none ↔
      ∀ w ∈ allWorkflows, ¬w.name = X ++ "-prod".data) := by
  have hbase : getBaseNameFromWorkflowName (X ++ "-dev".data) = X :=
    getBaseName_strip_dev X
  refine ⟨?_, ?_, ?_⟩
  · intro w hw
    refine ⟨cleanupNodeWebhookIds (injectEnvironmentVariables managed
        (cleanForProd devFileData (X ++ "-prod".data)) X "prod" none i d ni), ?_, ?_⟩
    · rw [cleanupNodeWebhookIds_name, injectEnvironmentVariables_name]
      rfl
    · unfold deploySingleWorkflow
      rw [hbase, getSuffix_prod]
      dsimp only
      rw [hw]
  · intro hnone
    refine ⟨cleanupNodeWebhookIds (injectEnvironmentVariables managed
        (cleanForProd devFileData (X ++ "-prod".data)) X "prod" none i d ni), ?_, ?_⟩
    · rw [cleanupNodeWebhookIds_name, injectEnvironmentVariables_name]
      rfl
    · unfold deploySingleWorkflow
      rw [hbase, getSuffix_prod]
      dsimp only
      rw [hnone]
  · simp only [List.find?_eq_none, beq_iff_eq]

/-- Witness for `deploy_reconciles_by_exact_name`: against a remote list
holding `Order Sync-prod` the deploy updates; against an empty list it
creates. -/
theorem deploy_reconciles_witness :
    (deploySingleWorkflow demoManaged demoRemote ("Order Sync".data ++ "-dev".data)
        demoWorkflow "c1".data "2026-01-01".data "n1".data "new-id".data).2.action =
      "updated" ∧
    (deploySingleWorkflow demoManaged [] ("Order Sync".data ++ "-dev".data)
        demoWorkflow "c1".data "2026-01-01".data "n1".data "new-id".data).2.action =
      "created" := by
  constructor
  · obtain ⟨dta, hname, heq⟩ := (deploy_reconciles_by_exact_name demoManaged demoRemote
      "Order Sync".data demoWorkflow "c1".data "2026-01-01".data "n1".data
      "new-id".data).1 ⟨"w1".data, "Order Sync-prod".data, true⟩ (by decide)
    rw [heq]
  · obtain ⟨dta, hname, heq⟩ := (deploy_reconciles_by_exact_name demoManaged []
      "Order Sync".data demoWorkflow "c1".data "2026-01-01".data "n1".data
      "new-id".data).2.1 (by decide)
    rw [heq]

/-! ## BackupEngine and BackupVerifier theorems (C5, C6, C9, C10) -/

/-- C5: for every set of existing backup directories and every `keepCount`
below their number, `cleanupOldBackups` deletes exactly the directories
beyond the `keepCount`-th newest by creation time: `keepCount` directories
remain, the rest are deleted, together they are exactly the original set,
and every deleted directory is no newer than every remaining one. -/
theorem cleanupOldBackups_deletes_beyond_keep (backupDirs : List BackupDirInfo)
    (keepCount : Nat) (h : keepCount < backupDirs.length) :
    (cleanupOldBackups backupDirs keepCount).1.length = keepCount ∧
    (cleanupOldBackups backupDirs keepCount).2.length =
      backupDirs.length - keepCount ∧
    ((cleanupOldBackups backupDirs keepCount).1 ++
      (cleanupOldBackups backupDirs keepCount).2).Perm backupDirs ∧
    ∀ d ∈ (cleanupOldBackups backupDirs keepCount).2,
      ∀ k ∈ (cleanupOldBackups backupDirs keepCount).1, d.created ≤ k.created := by
  have hle : ¬backupDirs.length ≤ keepCount := not_le.mpr h
  have hperm := List.perm_insertionSort
    (fun a b : BackupDirInfo => b.created ≤ a.created) backupDirs
  have hlen : (backupDirs.insertionSort
      (fun a b => b.created ≤ a.created)).length = backupDirs.length := hperm.length_eq
  haveI : IsTotal BackupDirInfo (fun a b => b.created ≤ a.created) :=
    ⟨fun a b => (Nat.le_total b.created a.created).imp id id⟩
  haveI : IsTrans BackupDirInfo (fun a b => b.created ≤ a.created) :=
    ⟨fun _ _ _ hab hbc => Nat.le_trans hbc hab⟩
  have hsorted := List.sorted_insertionSort
    (fun a b : BackupDirInfo => b.created ≤ a.created) backupDirs
  unfold cleanupOldBackups
  simp only [if_neg hle]
  refine ⟨?_, ?_, ?_, ?_⟩
  · rw [List.length_take, hlen]
    omega
  · rw [List.length_drop, hlen]
  · rw [List.take_append_drop]
    exact hperm
  · intro d hd k hk
    have hPW : List.Pairwise (fun a b : BackupDirInfo => b.created ≤ a.created)
        ((backupDirs.insertionSort (fun a b => b.created ≤ a.created)).take keepCount ++
          (backupDirs.insertionSort (fun a b => b.created ≤ a.created)).drop keepCount) := by
      rw [List.take_append_drop]
      exact hsorted
    exact (List.pairwise_append.mp hPW).2.2 k hk d hd

/-- Witness for `cleanupOldBackups_deletes_beyond_keep`: five backups with
`keepCount = 2` keep the two newest and delete the three oldest. -/
theorem cleanupOldBackups_witness :
    (cleanupOldBackups demoBackups 2).1.length = 2 ∧
    (cleanupOldBackups demoBackups 2).2.length = 3 ∧
    cleanupOldBackups demoBackups 2 =
      ([⟨"backup_e".data, 50⟩, ⟨"backup_d".data, 40⟩],
        [⟨"backup_c".data, 30⟩, ⟨"backup_b".data, 20⟩, ⟨"backup_a".data, 10⟩]) :=
  ⟨(cleanupOldBackups_deletes_beyond_keep demoBackups 2 (by decide)).1,
    (cleanupOldBackups_deletes_beyond_keep demoBackups 2 (by decide)).2.1,
    by decide⟩

/-- C6 counterexample: the first variant's `createBackup` (lines 584-642)
returns `null` — not a well-formed zero-count manifest — when zero managed
workflows are found for the environment. -/
theorem createBackupV1_zero_returns_null :
    createBackupV1 "prod" "backup_prod_20260101_000000".data
      "2026-01-01T00:00:00Z".data [] [] = CreateBackupResult.nullResult := rfl

/-- C6 (amended): the second variant's `createBackup` (lines 1310-1383)
returns, on zero found entities, a well-formed result whose manifest records
`workflowCount = 0` (and `failedCount = 0`, empty workflow list) instead of
failing the caller; the first variant (lines 584-642) instead returns
`null` (see the counterexample). -/
theorem createBackup_zero_wellFormed (environment : String)
    (backupName createdAt : Str) :
    createBackup environment backupName createdAt [] [] =
      CreateBackupResult.ok backupName
        { backupName := backupName, environment := environment,
          createdAt := createdAt, workflowCount := 0, failedCount := 0,
          workflows := [] } := rfl

/-- C9: `verifyBackup` passes exactly when the accumulated error list is
empty — warnings never fail verification — and a missing manifest sidecar
(on an existing backup directory) produces the
`Backup metadata file missing` error and an overall fail. -/
theorem verifyBackup_pass_iff_no_errors (backupName : Str) (s : BackupSnapshot) :
    ((verifyBackup backupName s).1 = true ↔ (verifyBackup backupName s).2.1 = []) ∧
    (s.dirExists = true → s.metaFile = MetaFile.missing →
      (verifyBackup backupName s).1 = false ∧
      "Backup metadata file missing".data ∈ (verifyBackup backupName s).2.1) := by
  constructor
  · unfold verifyBackup
    cases hd : s.dirExists with
    | false => simp
    | true => simp [List.isEmpty_iff]
  · intro hd hm
    unfold verifyBackup
    simp [hd, hm, verifyMetadata]

/-- Witness for `verifyBackup_pass_iff_no_errors`: a backup directory missing
its manifest fails with the manifest error, while a structurally complete
ten-day-old backup passes with a nonempty warning list. -/
theorem verifyBackup_witness :
    ((verifyBackup "backup_prod_20260101_000000".data demoSnapshotNoMeta).1 = false ∧
      "Backup metadata file missing".data ∈
        (verifyBackup "backup_prod_20260101_000000".data demoSnapshotNoMeta).2.1) ∧
    (verifyBackup "backup_prod_20260101_000000".data demoSnapshotOld).1 = true ∧
    (verifyBackup "backup_prod_20260101_000000".data demoSnapshotOld).2.2 ≠ [] :=
  ⟨(verifyBackup_pass_iff_no_errors "backup_prod_20260101_000000".data
      demoSnapshotNoMeta).2 rfl rfl,
    by decide, by decide⟩

/-- C10: the verifier's required-field check treats any falsy manifest value
as missing, so a backup whose manifest parses but records `workflowCount`
equal to `0` receives a `Missing metadata field: workflowCount` error and
fails verification, even though `0` truthfully describes a zero-entity
backup. -/
theorem verify_zero_workflowCount_fails (backupName : Str) (s : BackupSnapshot)
    (m : MetadataJson) (hd : s.dirExists = true)
    (hm : s.metaFile = MetaFile.parsed m) (hc : m.workflowCount = some 0) :
    "Missing metadata field: workflowCount".data ∈ (verifyBackup backupName s).2.1 ∧
    (verifyBackup backupName s).1 = false := by
  unfold verifyBackup
  have hmem : "Missing metadata field: workflowCount".data ∈
      (verifyMetadata backupName s.metaFile).1 := by
    simp [hm, verifyMetadata, hc, falsyNum]
  constructor
  · simp only [hd, if_true]
    exact List.mem_append.mpr (Or.inl (List.mem_append.mpr (Or.inl hmem)))
  · simp only [hd, if_true]
    have hne : (verifyMetadata backupName s.metaFile).1 ++
        ((verifyWorkflowFiles s.files).1 ++ (verifyBackupIntegrity s).1) ≠ [] := by
      intro hnil
      rw [List.append_eq_nil] at hnil
      exact List.ne_nil_of_mem hmem hnil.1
    simp only [List.append_assoc]
    exact List.isEmpty_eq_false.mpr hne

/-- Witness for `verify_zero_workflowCount_fails` at a concrete zero-count
manifest. -/
theorem verify_zero_workflowCount_witness :
    "Missing metadata field: workflowCount".data ∈
      (verifyBackup "backup_prod_20260101_000000".data demoSnapshotZeroCount).2.1 ∧
    (verifyBackup "backup_prod_20260101_000000".data demoSnapshotZeroCount).1 = false :=
  verify_zero_workflowCount_fails "backup_prod_20260101_000000".data
    demoSnapshotZeroCount _ rfl rfl rfl

end N8n
